import Mathlib

/-!
Verification of the spaceExploration repository's glider update, scene-object
frame update, ray-pick selection, selection event protocol and parameter
store, against its natural-language specification.

All numeric code in the repository uses JavaScript floats; here the same
arithmetic is carried out over `ℚ` exactly.  The two float-only primitives
that cannot be represented exactly over `ℚ` are abstracted:

* `Math.sin` / `Math.cos` become function parameters `sinQ cosQ : ℚ → ℚ`;
* the normalized forward vector of the glider's orientation quaternion
  (`Vector3.TransformNormal(Forward, rotationMatrix).normalize()` in
  `updateGlider`) becomes a per-frame input `forward`, about which theorems
  assume only what real normalization guarantees (components bounded by 1);
* comparisons against a square root (`Vector3.Distance`, `dir.length()`)
  are encoded by the exactly equivalent comparisons of squares
  (`sqrtLeQ` / `sqrtGtQ` below), so every definition stays executable.
-/

namespace SpaceExploration

/-- Component-wise rational 3-vector standing for Babylon's `Vector3`. -/
structure V3 where
  x : ℚ
  y : ℚ
  z : ℚ
deriving DecidableEq, Repr

/-- Vector difference, as `lookAt.subtract(origin)`. -/
def V3.sub (a b : V3) : V3 := ⟨a.x - b.x, a.y - b.y, a.z - b.z⟩

/-- Squared length of a vector; `v.length()` in Babylon is its square root. -/
def V3.quad (v : V3) : ℚ := v.x ^ 2 + v.y ^ 2 + v.z ^ 2

/-- Scalar multiple, as Babylon's `v.scale(s)`. -/
def V3.scale (v : V3) (s : ℚ) : V3 := ⟨v.x * s, v.y * s, v.z * s⟩

/-- Vector sum, as `position.addInPlace(w)`. -/
def V3.add (a b : V3) : V3 := ⟨a.x + b.x, a.y + b.y, a.z + b.z⟩

/-- JavaScript `Math.sign`: 1 for positive, -1 for negative, 0 for zero. -/
def signJS (q : ℚ) : ℚ := if q > 0 then 1 else if q < 0 then -1 else 0

/-- Exact encoding of `Real.sqrt s ≤ c` for `0 ≤ s`: true iff `c` is
nonnegative and `s ≤ c ^ 2`.  Used for `dist <= cutOff` in `raySelect`. -/
def sqrtLeQ (s c : ℚ) : Bool := decide (0 ≤ c) && decide (s ≤ c ^ 2)

/-- Exact encoding of `Real.sqrt s > c` for `0 ≤ s`: true iff `c` is
negative or `c ^ 2 < s`.  Used for `dist > .5` in `raySelect`. -/
def sqrtGtQ (s c : ℚ) : Bool := decide (c < 0) || decide (c ^ 2 < s)

/-! ## Glider controller — `src/scenes/scene1/glider.ts`

The mutable module object `glider` carries the glider's kinematic state; the
thruster emissive state toggled by `setThrusters` is modelled by the Boolean
`thrusters`.  `updateGlider(camera, cameraType, birdCam, dt, dirs,
needsUpdate)` is embedded as a pure state transformer; camera following only
reads the glider state and is outside every claim, so it is omitted. -/

/-- Constant `glider.extendsX = 50`. -/
def extendsX : ℚ := 50

/-- Constant `glider.extendsZ = 30`. -/
def extendsZ : ℚ := 30

/-- Constant `glider.maxSpeed = 15.0`. -/
def maxSpeed : ℚ := 15

/-- Constant `glider.accel = 10.0`. -/
def accel : ℚ := 10

/-- Constant `glider.decel = 10.0`. -/
def decel : ℚ := 10

/-- Constant `const bounds = 5` (the 5% boundary margin) in `updateGlider`. -/
def bounds : ℚ := 5

/-- Constant `const pitchRate = 1.2` in `updateGlider`. -/
def pitchRate : ℚ := 6 / 5

/-- Glider state: mesh position, scalar speed, and the thruster emissive
state last set through `setThrusters`. -/
structure Glider where
  pos : V3
  speed : ℚ
  thrusters : Bool
deriving DecidableEq, Repr

/-- Per-frame input to `updateGlider`: the frame duration `dt`, the
`InputState` fields read by the function (`thrust`, `pitch`; `yaw` only
feeds the abstracted quaternion), the caller-computed `needsUpdate` flag,
and `forward`, the normalized world-forward vector derived from the current
`rotationQuat` (abstracting the float quaternion/matrix pipeline). -/
structure FrameInput where
  dt : ℚ
  thrust : ℚ
  pitch : ℚ
  needsUpdate : Bool
  forward : V3
deriving DecidableEq, Repr

/-- Lines 132-167: when `needsUpdate`, the pitch input climbs/dives by
adding `pitchDelta = dirs.pitch * pitchRate * dt` to `position.y` (the yaw
quaternion update feeds only the abstracted `forward`). -/
def inputPhase (i : FrameInput) (g : Glider) : Glider :=
  if i.needsUpdate then
    { g with pos := { g.pos with y := g.pos.y + i.pitch * pitchRate * i.dt } }
  else g

/-- Lines 169-171: speed integration, clamped by `Math.min` / `Math.max`. -/
def speedPhase (i : FrameInput) (g : Glider) : Glider :=
  if i.thrust > 0 then { g with speed := min maxSpeed (g.speed + accel * i.dt) }
  else if i.thrust < 0 then { g with speed := max 0 (g.speed - decel * i.dt) }
  else g

/-- Guard of the second X boundary branch (lines 182-186):
`Math.abs(position.x) < -extendsX * (1 + bounds / 100)`. -/
def xDeadGuard (x : ℚ) : Bool := decide (|x| < -(extendsX * (1 + bounds / 100)))

/-- Guard of the fourth boundary branch (lines 192-196):
`Math.abs(position.z) < -extendsZ * (1 + bounds / 100)`. -/
def zDeadGuard (z : ℚ) : Bool := decide (|z| < -(extendsZ * (1 + bounds / 100)))

/-- Lines 177-181: clamp X to the +5% boundary, zero the speed and switch
the thrusters off. -/
def clampX1 (g : Glider) : Glider :=
  if |g.pos.x| > extendsX * (1 + bounds / 100) then
    { g with pos := { g.pos with x := extendsX * (1 + bounds / 100) * signJS g.pos.x }
             speed := 0
             thrusters := false }
  else g

/-- Lines 182-186: the second X branch, guarded by `xDeadGuard`. -/
def clampX2 (g : Glider) : Glider :=
  if xDeadGuard g.pos.x then
    { g with pos := { g.pos with x := -(extendsX * (1 + bounds / 100)) * signJS g.pos.x }
             speed := 0
             thrusters := false }
  else g

/-- Lines 187-191: clamp Z to the +5% boundary, zero the speed and switch
the thrusters off. -/
def clampZ1 (g : Glider) : Glider :=
  if |g.pos.z| > extendsZ * (1 + bounds / 100) then
    { g with pos := { g.pos with z := extendsZ * (1 + bounds / 100) * signJS g.pos.z }
             speed := 0
             thrusters := false }
  else g

/-- Lines 192-196: the fourth boundary branch, guarded by `zDeadGuard`. -/
def clampZ2 (g : Glider) : Glider :=
  if zDeadGuard g.pos.z then
    { g with pos := { g.pos with z := -(extendsZ * (1 + bounds / 100)) * signJS g.pos.z }
             speed := 0
             thrusters := false }
  else g

/-- The whole boundary-check block of `updateGlider` (lines 174-196),
in source order. -/
def clampPhase (g : Glider) : Glider := clampZ2 (clampZ1 (clampX2 (clampX1 g)))

/-- Lines 198-200: `if (needsUpdate) setThrusters(glider.speed != 0)`. -/
def thrustersPhase (i : FrameInput) (g : Glider) : Glider :=
  if i.needsUpdate then { g with thrusters := decide (g.speed ≠ 0) } else g

/-- Lines 203-210: translate along the normalized forward axis by
`speed * dt`. -/
def movePhase (i : FrameInput) (g : Glider) : Glider :=
  { g with pos := g.pos.add (i.forward.scale (g.speed * i.dt)) }

/-- The `updateGlider` state transformer (`glider.ts` lines 126-245, path
with a loaded mesh), composing its phases in source order. -/
def updateGlider (g : Glider) (i : FrameInput) : Glider :=
  movePhase i (thrustersPhase i (clampPhase (speedPhase i (inputPhase i g))))

/-- Initial glider state from the `glider` module object: position
`(posX, posY, posZ) = (-20, 1, -10)`, `speed = 0.0`; the thruster materials
are created glowing (`emissiveColor = thrustOnColor`). -/
def initGlider : Glider := { pos := ⟨-20, 1, -10⟩, speed := 0, thrusters := true }

/-- Run `updateGlider` over a sequence of frames. -/
def runGlider (g : Glider) (is : List FrameInput) : Glider := is.foldl updateGlider g

/-! ## Selection handler — `src/scenes/scene1/main.ts` and `part_003`

The object-selection section of the per-frame `beforeRender` callback keeps
`planetSelected : number | null` and fires the hosting-UI callback with
`("on", idx)` / `("off", idx)`.  The per-frame candidate is the `name`
returned by `raySelect`; the planet registry enters only through the lookup
`system.find(p => p.name === closestName)`, so it is modelled by the list of
object names. -/

/-- Numeric value of a digit list (most significant first). -/
def digitsVal (cs : List Char) : Nat :=
  cs.foldl (fun a c => a * 10 + (c.toNat - '0'.toNat)) 0

/-- JavaScript `parseInt` (radix 10): skip leading whitespace, read an
optional sign and then a maximal run of digits; `none` stands for `NaN`. -/
def parseIntJS (s : String) : Option Int :=
  let cs := s.data.dropWhile (fun c => c.isWhitespace)
  match cs with
  | '-' :: rest =>
    if rest.takeWhile (fun c => c.isDigit) = [] then none
    else some (-(digitsVal (rest.takeWhile (fun c => c.isDigit)) : Int))
  | '+' :: rest =>
    if rest.takeWhile (fun c => c.isDigit) = [] then none
    else some (digitsVal (rest.takeWhile (fun c => c.isDigit)))
  | _ =>
    if cs.takeWhile (fun c => c.isDigit) = [] then none
    else some (digitsVal (cs.takeWhile (fun c => c.isDigit)))

/-- Index extraction of `scene1/main.ts` line 183:
`parseInt(closestName.substring(3)) || undefined` (`NaN` and `0` both
coerce to `undefined`). -/
def extractIdx (name : String) : Option Int :=
  match parseIntJS (name.drop 3) with
  | none => none
  | some n => if n = 0 then none else some n

/-- Index extraction of `part_003` line 218:
`(parseInt(closestName.substring(3)) - 1) || undefined` (`NaN - 1` is `NaN`;
a difference of `0` coerces to `undefined`). -/
def extractIdxP3 (name : String) : Option Int :=
  match parseIntJS (name.drop 3) with
  | none => none
  | some n => if n - 1 = 0 then none else some (n - 1)

/-- JavaScript truthiness of `planetSelected : number | null`. -/
def jsTruthy : Option Int → Bool
  | none => false
  | some n => decide (n ≠ 0)

/-- One frame of the selection logic of `scene1/main.ts` (lines 179-217),
given the registry names, the current `planetSelected` and the ray-pick
candidate; returns the new `planetSelected` and the callback events fired,
in order. -/
def selectionStep (sys : List String) (sel : Option Int) (cand : Option String) :
    Option Int × List (String × Int) :=
  match cand with
  | some name =>
    match extractIdx name with
    | none => (sel, [])
    | some idx =>
      if sys.contains name then
        if !jsTruthy sel || decide (sel ≠ some idx) then (some idx, [("on", idx)])
        else (sel, [])
      else (sel, [])
  | none =>
    match sel with
    | some i => if decide (i ≠ 0) then (none, [("off", i)]) else (none, [])
    | none => (none, [])

/-- One frame of the selection logic of `part_003` (lines 210-252), which
differs from `selectionStep` only in using `extractIdxP3`. -/
def selectionStepP3 (sys : List String) (sel : Option Int) (cand : Option String) :
    Option Int × List (String × Int) :=
  match cand with
  | some name =>
    match extractIdxP3 name with
    | none => (sel, [])
    | some idx =>
      if sys.contains name then
        if !jsTruthy sel || decide (sel ≠ some idx) then (some idx, [("on", idx)])
        else (sel, [])
      else (sel, [])
  | none =>
    match sel with
    | some i => if decide (i ≠ 0) then (none, [("off", i)]) else (none, [])
    | none => (none, [])

/-- Run the selection handler over a trace of per-frame candidates,
accumulating the fired events in order. -/
def runSelection (sys : List String) : Option Int → List (Option String) →
    Option Int × List (String × Int)
  | sel, [] => (sel, [])
  | sel, c :: cs =>
    let r := selectionStep sys sel c
    let rest := runSelection sys r.1 cs
    (rest.1, r.2 ++ rest.2)

/-- Adjacent-duplicate check for an event trace: true when no `"on"` event
is immediately followed by an identical `"on"` event. -/
def adjOk : List (String × Int) → Bool
  | [] => true
  | [_] => true
  | a :: b :: r => (!(a.1 == "on" && a == b)) && adjOk (b :: r)

/-- Detector for the spec's protocol property: returns true when the trace
contains two `("on", i)` events with no intervening `("off", i)`; the
accumulator records whether an un-cancelled `("on", i)` has been seen. -/
def doubleOnNoOff (i : Int) : List (String × Int) → Bool → Bool
  | [], _ => false
  | e :: r, armed =>
    if e = ("on", i) then (if armed then true else doubleOnNoOff i r true)
    else if e = ("off", i) then doubleOnNoOff i r false
    else doubleOnNoOff i r armed

/-! ## Parameter store — `setParams` in `scene1/main.ts` (lines 98-104)

`sysParms` is a plain JS object; `setParams` rejects any key that is not an
own property (`Object.prototype.hasOwnProperty.call`) by throwing before the
assignment.  The object is modelled as an association list of its own
properties; the thrown error is returned in the first component. -/

/-- Values storable in `sysParms` (booleans, numbers and strings occur). -/
inductive PVal where
  | pbool : Bool → PVal
  | pnum : ℚ → PVal
  | pstr : String → PVal
deriving DecidableEq, Repr

/-- A JS object as the association list of its own properties. -/
abbrev ParamStore := List (String × PVal)

/-- The initial `sysParms` object literal of `scene1/main.ts`. -/
def sysParmsInit : ParamStore :=
  [("renderLoop", .pbool false), ("gravity", .pnum 1), ("buoyance", .pnum 1),
   ("cluster", .pnum 1), ("camMode", .pstr "free"), ("thrustersOn", .pbool false)]

/-- `Object.prototype.hasOwnProperty.call(sysParms, key)`. -/
def hasOwnProp (ps : ParamStore) (k : String) : Bool := ps.any (fun kv => kv.1 == k)

/-- `setParams(key, value)`: throw `Invalid parameter key` when `key` is not
an own property, otherwise assign `value` to it; the first component is the
thrown error (if any), the second the resulting store. -/
def setParams (ps : ParamStore) (k : String) (v : PVal) : Option String × ParamStore :=
  if !hasOwnProp ps k then (some ("Invalid parameter key: " ++ k), ps)
  else (none, ps.map (fun kv => if kv.1 = k then (k, v) else kv))

/-- Property read-back (JS member access on the store). -/
def getParam (ps : ParamStore) (k : String) : Option PVal :=
  (ps.find? (fun kv => kv.1 == k)).map (fun kv => kv.2)

/-! ## Object registry frame update — `src/bab3.ts` and `src/scenes/scene1.ts`

`SceneObject` records carry rotation and orbit parameters (the
`rotation.active` / `orbit.active` flags belong to the scene1 data model;
`bab3.ts` never reads them).  `mesh` records whether the mesh handle is set
(the not-yet-loaded guard), and `rotY` is the accumulated Y-axis angle fed
to `mesh.rotate(Vector3.Up(), _)`. -/

/-- `rotation {speed, angle, active}` of a `SceneObject`. -/
structure RotationP where
  speed : ℚ
  angle : ℚ
  active : Bool
deriving DecidableEq, Repr

/-- `orbit {radius, speed, angle, active}` of a `SceneObject`. -/
structure OrbitP where
  radius : ℚ
  speed : ℚ
  angle : ℚ
  active : Bool
deriving DecidableEq, Repr

/-- A registry object (planet/poster) as mutated by the frame callbacks. -/
structure Planet where
  name : String
  mesh : Bool
  pos : V3
  rotY : ℚ
  rotation : RotationP
  orbit : OrbitP
deriving DecidableEq, Repr

/-- Per-planet body of the `beforeRender` loop of `bab3.ts` (lines 221-236):
skip meshless objects, pin `position.y` to 3, then if `orbit.angle != 0` set
`position.x/z` from the orbit circle and advance the angle, and finally
rotate about Y by the constant `0.01`.  `Math.sin` / `Math.cos` are the
abstract parameters `sinQ` / `cosQ`. -/
def planetFrameBab3 (sinQ cosQ : ℚ → ℚ) (p : Planet) : Planet :=
  if p.mesh = false then p
  else
    let p1 := { p with pos := { p.pos with y := 3 } }
    let p2 :=
      if p1.orbit.angle ≠ 0 then
        { p1 with
            pos := { p1.pos with x := p1.orbit.radius * sinQ p1.orbit.angle,
                                 z := p1.orbit.radius * cosQ p1.orbit.angle }
            orbit := { p1.orbit with angle := p1.orbit.angle + p1.orbit.speed } }
      else p1
    { p2 with rotY := p2.rotY + 1 / 100 }

/-- Per-planet rotation update of the `beforeRender` loop of `scene1.ts`
(lines 305-325) and `part_004` (lines 191-211): skip meshless objects (the
orbit block there is commented out) and, when `rotation.active`, rotate
about Y by `rotation.speed`. -/
def planetFrameScene1 (p : Planet) : Planet :=
  if p.mesh = false then p
  else if p.rotation.active then { p with rotY := p.rotY + p.rotation.speed }
  else p

/-! ## Ray-pick — `pickBetweenCameraAndLookAt` in `part_002` (raySelect)

The scene geometry is abstracted into per-mesh data: the flags read by the
default predicate, the absolute position, and `rayHit`, the distance along
the current frame's ray at which the engine's intersection test hits the
mesh (`none` for a miss).  `multiPickWithRay` returns its hits sorted by
distance, closest first, restricted to the ray's length. -/

/-- Abstract per-frame view of a scene mesh. -/
structure SceneMesh where
  name : String
  isPickable : Bool
  isEnabled : Bool
  isVisible : Bool
  absPos : V3
  rayHit : Option ℚ
deriving DecidableEq, Repr

/-- The default predicate of `pickBetweenCameraAndLookAt`:
`m.isPickable !== false && m.isEnabled() && m.isVisible`. -/
def defaultPred (m : SceneMesh) : Bool := m.isPickable && m.isEnabled && m.isVisible

/-- Insertion into a list sorted by hit distance (stable). -/
def insertByDist (p : ℚ × SceneMesh) : List (ℚ × SceneMesh) → List (ℚ × SceneMesh)
  | [] => [p]
  | q :: r => if p.1 ≤ q.1 then p :: q :: r else q :: insertByDist p r

/-- Sort hits by distance, closest first. -/
def sortByDist (l : List (ℚ × SceneMesh)) : List (ℚ × SceneMesh) :=
  l.foldr insertByDist []

/-- `scene.multiPickWithRay(ray, pred)`: the meshes passing the predicate
that the ray (of squared length `quadLen`) hits within its length, sorted by
hit distance. -/
def multiPickWithRay (quadLen : ℚ) (pred : SceneMesh → Bool) (meshes : List SceneMesh) :
    List (ℚ × SceneMesh) :=
  sortByDist (meshes.filterMap (fun m =>
    match m.rayHit with
    | some d => if pred m && decide (0 ≤ d) && decide (d ^ 2 ≤ quadLen) then some (d, m) else none
    | none => none))

/-- `pickBetweenCameraAndLookAt(scene, camera, lookAt, cutOff)` from
`part_002`, imported by the scenes as `raySelect`; returns the selection
candidate name (the `name` field of its result object). -/
def raySelect (meshes : List SceneMesh) (origin lookAt : V3) (cutOff : ℚ) : Option String :=
  let dir := lookAt.sub origin
  if dir.quad = 0 then none
  else
    match (multiPickWithRay dir.quad defaultPred meshes).head? with
    | none => none
    | some (_, m) =>
      if m.name = "" then none
      else
        if sqrtLeQ ((origin.sub m.absPos).quad) cutOff
            && sqrtGtQ ((origin.sub m.absPos).quad) (1 / 2) then some m.name
        else none

/-- Spec-side notion (section 4.3): the closest hit of the pick ray, when
the ray exists. -/
def closestHit (meshes : List SceneMesh) (origin lookAt : V3) : Option SceneMesh :=
  let dir := lookAt.sub origin
  if dir.quad = 0 then none
  else ((multiPickWithRay dir.quad defaultPred meshes).head?).map (fun dm => dm.2)

/-- Candidate rule written from the spec's words (claim C5): the name of the
closest hit when it is nonempty and the mesh's distance from the camera lies
in `(0.5, cutOff]`, otherwise no candidate.  To be compared with
`raySelect`. -/
def specSelect (meshes : List SceneMesh) (origin lookAt : V3) (cutOff : ℚ) : Option String :=
  match closestHit meshes origin lookAt with
  | none => none
  | some m =>
    if m.name ≠ "" ∧ 1 / 4 < (origin.sub m.absPos).quad
        ∧ ((origin.sub m.absPos).quad ≤ cutOff ^ 2 ∧ 0 ≤ cutOff) then some m.name
    else none

/-! ## Concrete data used by counterexamples and witnesses. -/

/-- A frame with a large `dt` and full thrust, no yaw/pitch; `forward` is
the exact normalized forward vector of the initial identity orientation
(`Quaternion.FromEulerAngles(0,0,0)` maps `Vector3.Forward() = (0,0,1)` to
itself). -/
def cexInput : FrameInput :=
  { dt := 10, thrust := 1, pitch := 0, needsUpdate := true, forward := ⟨0, 0, 1⟩ }

/-- A glider state beyond the +X boundary, used to exercise the bounce. -/
def breachState : Glider := { pos := ⟨60, 1, 0⟩, speed := 7, thrusters := true }

/-- A neutral frame input (no thrust, unit dt, identity forward). -/
def idleInput : FrameInput :=
  { dt := 1, thrust := 0, pitch := 0, needsUpdate := false, forward := ⟨0, 0, 1⟩ }

/-- A concrete orbiting object for witnesses. -/
def orbitPlanet : Planet :=
  { name := "obj2", mesh := true, pos := ⟨4, 0, 0⟩, rotY := 0,
    rotation := { speed := 1 / 10, angle := 0, active := true },
    orbit := { radius := 5, speed := 1 / 100, angle := 1, active := true } }

/-- A concrete object with inactive rotation for witnesses. -/
def inertPlanet : Planet :=
  { name := "obj3", mesh := true, pos := ⟨7, 0, 0⟩, rotY := 0,
    rotation := { speed := 1 / 10, angle := 0, active := false },
    orbit := { radius := 7, speed := 1 / 100, angle := 0, active := false } }

/-! # Glider lemmas -/

lemma boundX_pos : (0 : ℚ) < extendsX * (1 + bounds / 100) := by
  norm_num [extendsX, bounds]

lemma boundZ_pos : (0 : ℚ) < extendsZ * (1 + bounds / 100) := by
  norm_num [extendsZ, bounds]

lemma xDeadGuard_false (x : ℚ) : xDeadGuard x = false := by
  simp only [xDeadGuard, decide_eq_false_iff_not, not_lt]
  have := abs_nonneg x
  linarith [boundX_pos]

lemma zDeadGuard_false (z : ℚ) : zDeadGuard z = false := by
  simp only [zDeadGuard, decide_eq_false_iff_not, not_lt]
  have := abs_nonneg z
  linarith [boundZ_pos]

lemma clampX2_eq (g : Glider) : clampX2 g = g := by
  simp [clampX2, xDeadGuard_false]

lemma clampZ2_eq (g : Glider) : clampZ2 g = g := by
  simp [clampZ2, zDeadGuard_false]

lemma clampPhase_eq (g : Glider) : clampPhase g = clampZ1 (clampX1 g) := by
  simp [clampPhase, clampX2_eq, clampZ2_eq]

lemma inputPhase_speed (i : FrameInput) (g : Glider) : (inputPhase i g).speed = g.speed := by
  unfold inputPhase; split <;> rfl

lemma inputPhase_pos_x (i : FrameInput) (g : Glider) : (inputPhase i g).pos.x = g.pos.x := by
  unfold inputPhase; split <;> rfl

lemma inputPhase_pos_z (i : FrameInput) (g : Glider) : (inputPhase i g).pos.z = g.pos.z := by
  unfold inputPhase; split <;> rfl

lemma speedPhase_pos (i : FrameInput) (g : Glider) : (speedPhase i g).pos = g.pos := by
  unfold speedPhase; split_ifs <;> rfl

lemma speedPhase_bounds (i : FrameInput) (g : Glider) (h0 : 0 ≤ g.speed)
    (h1 : g.speed ≤ maxSpeed) (hdt : 0 ≤ i.dt) :
    0 ≤ (speedPhase i g).speed ∧ (speedPhase i g).speed ≤ maxSpeed := by
  unfold speedPhase
  split_ifs with ht1 ht2
  · refine ⟨le_min (by norm_num [maxSpeed]) (by unfold accel; linarith), min_le_left _ _⟩
  · refine ⟨le_max_left _ _, max_le (by norm_num [maxSpeed]) (by unfold decel; linarith)⟩
  · exact ⟨h0, h1⟩

lemma clampX1_fires_x (g : Glider) (h : extendsX * (1 + bounds / 100) < |g.pos.x|) :
    (clampX1 g).pos.x = extendsX * (1 + bounds / 100) * signJS g.pos.x := by
  unfold clampX1; rw [if_pos h]

lemma clampX1_fires_speed (g : Glider) (h : extendsX * (1 + bounds / 100) < |g.pos.x|) :
    (clampX1 g).speed = 0 := by
  unfold clampX1; rw [if_pos h]

lemma clampX1_fires_thr (g : Glider) (h : extendsX * (1 + bounds / 100) < |g.pos.x|) :
    (clampX1 g).thrusters = false := by
  unfold clampX1; rw [if_pos h]

lemma clampX1_skips (g : Glider) (h : ¬ extendsX * (1 + bounds / 100) < |g.pos.x|) :
    clampX1 g = g := by
  unfold clampX1; rw [if_neg h]

lemma clampZ1_fires_z (g : Glider) (h : extendsZ * (1 + bounds / 100) < |g.pos.z|) :
    (clampZ1 g).pos.z = extendsZ * (1 + bounds / 100) * signJS g.pos.z := by
  unfold clampZ1; rw [if_pos h]

lemma clampZ1_fires_speed (g : Glider) (h : extendsZ * (1 + bounds / 100) < |g.pos.z|) :
    (clampZ1 g).speed = 0 := by
  unfold clampZ1; rw [if_pos h]

lemma clampZ1_fires_thr (g : Glider) (h : extendsZ * (1 + bounds / 100) < |g.pos.z|) :
    (clampZ1 g).thrusters = false := by
  unfold clampZ1; rw [if_pos h]

lemma clampZ1_skips (g : Glider) (h : ¬ extendsZ * (1 + bounds / 100) < |g.pos.z|) :
    clampZ1 g = g := by
  unfold clampZ1; rw [if_neg h]

lemma abs_mul_signJS (b x : ℚ) (hb : 0 < b) (hx : x ≠ 0) : |b * signJS x| = b := by
  rcases lt_trichotomy x 0 with h | h | h
  · rw [signJS, if_neg (by linarith), if_pos h]
    rw [abs_of_nonpos (by linarith)]; ring
  · exact absurd h hx
  · rw [signJS, if_pos h, mul_one, abs_of_pos hb]

lemma clampX1_x_bound (g : Glider) : |(clampX1 g).pos.x| ≤ extendsX * (1 + bounds / 100) := by
  by_cases h : extendsX * (1 + bounds / 100) < |g.pos.x|
  · have hx : g.pos.x ≠ 0 := by
      intro h0; rw [h0] at h; simp at h; linarith [boundX_pos]
    rw [clampX1_fires_x g h]
    exact le_of_eq (abs_mul_signJS _ _ boundX_pos hx)
  · rw [clampX1_skips g h]; exact not_lt.mp h

lemma clampZ1_z_bound (g : Glider) : |(clampZ1 g).pos.z| ≤ extendsZ * (1 + bounds / 100) := by
  by_cases h : extendsZ * (1 + bounds / 100) < |g.pos.z|
  · have hz : g.pos.z ≠ 0 := by
      intro h0; rw [h0] at h; simp at h; linarith [boundZ_pos]
    rw [clampZ1_fires_z g h]
    exact le_of_eq (abs_mul_signJS _ _ boundZ_pos hz)
  · rw [clampZ1_skips g h]; exact not_lt.mp h

lemma clampZ1_pos_x (g : Glider) : (clampZ1 g).pos.x = g.pos.x := by
  unfold clampZ1; split <;> rfl

lemma clampX1_pos_z (g : Glider) : (clampX1 g).pos.z = g.pos.z := by
  unfold clampX1; split <;> rfl

lemma clampX1_speed_cases (g : Glider) : (clampX1 g).speed = g.speed ∨ (clampX1 g).speed = 0 := by
  unfold clampX1; split
  · right; rfl
  · left; rfl

lemma clampZ1_speed_cases (g : Glider) : (clampZ1 g).speed = g.speed ∨ (clampZ1 g).speed = 0 := by
  unfold clampZ1; split
  · right; rfl
  · left; rfl

lemma clampPhase_x_bound (g : Glider) : |(clampPhase g).pos.x| ≤ extendsX * (1 + bounds / 100) := by
  rw [clampPhase_eq, clampZ1_pos_x]
  exact clampX1_x_bound g

lemma clampPhase_z_bound (g : Glider) : |(clampPhase g).pos.z| ≤ extendsZ * (1 + bounds / 100) := by
  rw [clampPhase_eq]
  exact clampZ1_z_bound (clampX1 g)

lemma clampPhase_speed_cases (g : Glider) :
    (clampPhase g).speed = g.speed ∨ (clampPhase g).speed = 0 := by
  rw [clampPhase_eq]
  rcases clampZ1_speed_cases (clampX1 g) with h | h <;> rw [h]
  · exact clampX1_speed_cases g
  · right; rfl

lemma thrustersPhase_speed (i : FrameInput) (g : Glider) :
    (thrustersPhase i g).speed = g.speed := by
  unfold thrustersPhase; split <;> rfl

lemma thrustersPhase_pos (i : FrameInput) (g : Glider) : (thrustersPhase i g).pos = g.pos := by
  unfold thrustersPhase; split <;> rfl

lemma movePhase_speed (i : FrameInput) (g : Glider) : (movePhase i g).speed = g.speed := rfl

lemma movePhase_thrusters (i : FrameInput) (g : Glider) :
    (movePhase i g).thrusters = g.thrusters := rfl

lemma updateGlider_speed_bounds (g : Glider) (i : FrameInput) (h0 : 0 ≤ g.speed)
    (h1 : g.speed ≤ maxSpeed) (hdt : 0 ≤ i.dt) :
    0 ≤ (updateGlider g i).speed ∧ (updateGlider g i).speed ≤ maxSpeed := by
  unfold updateGlider
  rw [movePhase_speed, thrustersPhase_speed]
  have hs := speedPhase_bounds i (inputPhase i g) (by rw [inputPhase_speed]; exact h0)
    (by rw [inputPhase_speed]; exact h1) hdt
  rcases clampPhase_speed_cases (speedPhase i (inputPhase i g)) with h | h <;> rw [h]
  · exact hs
  · exact ⟨le_refl 0, by norm_num [maxSpeed]⟩

lemma runGlider_speed_bounds (is : List FrameInput) (g : Glider) (h0 : 0 ≤ g.speed)
    (h1 : g.speed ≤ maxSpeed) (hdt : ∀ i ∈ is, 0 ≤ i.dt) :
    0 ≤ (runGlider g is).speed ∧ (runGlider g is).speed ≤ maxSpeed := by
  induction is generalizing g with
  | nil => exact ⟨h0, h1⟩
  | cons i is ih =>
    have hb := updateGlider_speed_bounds g i h0 h1 (hdt i (List.mem_cons_self i is))
    exact ih (updateGlider g i) hb.1 hb.2 (fun j hj => hdt j (List.mem_cons_of_mem i hj))

lemma clampPhase_bounce (q : Glider)
    (h : extendsX * (1 + bounds / 100) < |q.pos.x| ∨ extendsZ * (1 + bounds / 100) < |q.pos.z|) :
    (clampPhase q).speed = 0 ∧ (clampPhase q).thrusters = false ∧
    (extendsX * (1 + bounds / 100) < |q.pos.x| →
      (clampPhase q).pos.x = extendsX * (1 + bounds / 100) * signJS q.pos.x) ∧
    (extendsZ * (1 + bounds / 100) < |q.pos.z| →
      (clampPhase q).pos.z = extendsZ * (1 + bounds / 100) * signJS q.pos.z) := by
  rw [clampPhase_eq]
  have hxz : (clampX1 q).pos.z = q.pos.z := clampX1_pos_z q
  by_cases hx : extendsX * (1 + bounds / 100) < |q.pos.x| <;>
    by_cases hz : extendsZ * (1 + bounds / 100) < |q.pos.z|
  · have hz' : extendsZ * (1 + bounds / 100) < |(clampX1 q).pos.z| := by rw [hxz]; exact hz
    refine ⟨clampZ1_fires_speed _ hz', clampZ1_fires_thr _ hz', fun _ => ?_, fun _ => ?_⟩
    · rw [clampZ1_pos_x, clampX1_fires_x q hx]
    · rw [clampZ1_fires_z _ hz', hxz]
  · have hz' : ¬ extendsZ * (1 + bounds / 100) < |(clampX1 q).pos.z| := by rw [hxz]; exact hz
    rw [clampZ1_skips _ hz']
    exact ⟨clampX1_fires_speed q hx, clampX1_fires_thr q hx,
      fun _ => clampX1_fires_x q hx, fun hzz => absurd hzz hz⟩
  · rw [clampX1_skips q hx]
    exact ⟨clampZ1_fires_speed q hz, clampZ1_fires_thr q hz,
      fun hxx => absurd hxx hx, fun _ => clampZ1_fires_z q hz⟩
  · rcases h with h | h
    · exact absurd h hx
    · exact absurd h hz

lemma thrustersPhase_zero (i : FrameInput) (g : Glider) (hs : g.speed = 0)
    (ht : g.thrusters = false) : thrustersPhase i g = g := by
  unfold thrustersPhase
  split
  · cases g with
    | mk pos speed thrusters =>
      simp only at hs ht
      subst hs; subst ht
      norm_num
  · rfl

lemma movePhase_zero_pos (i : FrameInput) (g : Glider) (hs : g.speed = 0) :
    (movePhase i g).pos.x = g.pos.x ∧ (movePhase i g).pos.z = g.pos.z := by
  constructor <;> simp [movePhase, V3.add, V3.scale, hs]

lemma updateGlider_pos_overshoot (g : Glider) (i : FrameInput) (h0 : 0 ≤ g.speed)
    (h1 : g.speed ≤ maxSpeed) (hdt : 0 ≤ i.dt) (hfx : |i.forward.x| ≤ 1)
    (hfz : |i.forward.z| ≤ 1) :
    |(updateGlider g i).pos.x| ≤ extendsX * (1 + bounds / 100) + maxSpeed * i.dt ∧
    |(updateGlider g i).pos.z| ≤ extendsZ * (1 + bounds / 100) + maxSpeed * i.dt := by
  have hspeed : 0 ≤ (clampPhase (speedPhase i (inputPhase i g))).speed ∧
      (clampPhase (speedPhase i (inputPhase i g))).speed ≤ maxSpeed := by
    have hs := speedPhase_bounds i (inputPhase i g) (by rw [inputPhase_speed]; exact h0)
      (by rw [inputPhase_speed]; exact h1) hdt
    rcases clampPhase_speed_cases (speedPhase i (inputPhase i g)) with h | h <;> rw [h]
    · exact hs
    · exact ⟨le_refl 0, by norm_num [maxSpeed]⟩
  have hxend : (updateGlider g i).pos.x =
      (clampPhase (speedPhase i (inputPhase i g))).pos.x +
        i.forward.x * ((clampPhase (speedPhase i (inputPhase i g))).speed * i.dt) := by
    simp [updateGlider, movePhase, V3.add, V3.scale, thrustersPhase_pos, thrustersPhase_speed]
  have hzend : (updateGlider g i).pos.z =
      (clampPhase (speedPhase i (inputPhase i g))).pos.z +
        i.forward.z * ((clampPhase (speedPhase i (inputPhase i g))).speed * i.dt) := by
    simp [updateGlider, movePhase, V3.add, V3.scale, thrustersPhase_pos, thrustersPhase_speed]
  constructor
  · rw [hxend]
    calc |(clampPhase (speedPhase i (inputPhase i g))).pos.x +
          i.forward.x * ((clampPhase (speedPhase i (inputPhase i g))).speed * i.dt)|
        ≤ |(clampPhase (speedPhase i (inputPhase i g))).pos.x| +
          |i.forward.x * ((clampPhase (speedPhase i (inputPhase i g))).speed * i.dt)| :=
          abs_add _ _
      _ ≤ extendsX * (1 + bounds / 100) + maxSpeed * i.dt := by
          refine add_le_add (clampPhase_x_bound _) ?_
          rw [abs_mul, abs_of_nonneg (mul_nonneg hspeed.1 hdt)]
          nlinarith [abs_nonneg i.forward.x, hspeed.1, hspeed.2, hdt,
            mul_nonneg (sub_nonneg.mpr hfx) hspeed.1,
            mul_nonneg hdt (sub_nonneg.mpr hspeed.2)]
  · rw [hzend]
    calc |(clampPhase (speedPhase i (inputPhase i g))).pos.z +
          i.forward.z * ((clampPhase (speedPhase i (inputPhase i g))).speed * i.dt)|
        ≤ |(clampPhase (speedPhase i (inputPhase i g))).pos.z| +
          |i.forward.z * ((clampPhase (speedPhase i (inputPhase i g))).speed * i.dt)| :=
          abs_add _ _
      _ ≤ extendsZ * (1 + bounds / 100) + maxSpeed * i.dt := by
          refine add_le_add (clampPhase_z_bound _) ?_
          rw [abs_mul, abs_of_nonneg (mul_nonneg hspeed.1 hdt)]
          nlinarith [abs_nonneg i.forward.z, hspeed.1, hspeed.2, hdt,
            mul_nonneg (sub_nonneg.mpr hfz) hspeed.1,
            mul_nonneg hdt (sub_nonneg.mpr hspeed.2)]

/-! # Claim theorems: glider -/

/-- C3: starting from speed 0, for every sequence of thrust inputs and every
sequence of nonnegative frame durations, after each `updateGlider` call
(the calls already performed are `done`, the remaining ones `rest`) the
glider speed satisfies `0 ≤ speed ≤ maxSpeed`. -/
theorem c3_speed_invariant (done rest : List FrameInput)
    (hdt : ∀ i ∈ done ++ rest, 0 ≤ i.dt) :
    0 ≤ (runGlider initGlider done).speed ∧ (runGlider initGlider done).speed ≤ maxSpeed :=
  runGlider_speed_bounds done initGlider (le_refl 0) (by norm_num [initGlider, maxSpeed])
    (fun i hi => hdt i (List.mem_append_left rest hi))

/-- Witness for C3 at the concrete one-frame trace `[cexInput]`. -/
theorem c3_speed_invariant_witness :
    0 ≤ (runGlider initGlider [cexInput]).speed ∧
      (runGlider initGlider [cexInput]).speed ≤ maxSpeed :=
  c3_speed_invariant [cexInput] []
    (by intro i hi; simp at hi; subst hi; norm_num [cexInput])

/-- C10: the two boundary branches of `updateGlider` that test
`Math.abs(position component) < -extent * (1 + 5/100)` are unreachable —
their guards are false for every input — so the whole clamp block equals the
composition of the first and third branches alone. -/
theorem c10_dead_branches :
    (∀ x : ℚ, xDeadGuard x = false) ∧ (∀ z : ℚ, zDeadGuard z = false) ∧
      ∀ g : Glider, clampPhase g = clampZ1 (clampX1 g) :=
  ⟨xDeadGuard_false, zDeadGuard_false, clampPhase_eq⟩

/-- C2 counterexample: one `updateGlider` call with a nonnegative frame
duration (`dt = 10`, full thrust, identity orientation) moves the glider
from its initial state to `z = 140`, violating
`|position.z| ≤ extendsZ * 1.05 = 31.5` at the end of the call: the claim's
invariant is false as stated. -/
theorem c2_position_counterexample :
    0 ≤ cexInput.dt ∧
      ¬ |(runGlider initGlider [cexInput]).pos.z| ≤ extendsZ * (1 + bounds / 100) := by
  constructor
  · norm_num [cexInput]
  · norm_num [runGlider, updateGlider, movePhase, thrustersPhase, clampPhase, clampX1, clampX2,
      clampZ1, clampZ2, speedPhase, inputPhase, initGlider, cexInput, extendsX, extendsZ,
      maxSpeed, accel, decel, bounds, pitchRate, signJS, xDeadGuard, zDeadGuard, V3.add,
      V3.scale, abs_of_nonneg, abs_of_nonpos]

/-- C2 amended: the boundary clamp inside each `updateGlider` call bounds
the position by `extent * 1.05` immediately after the clamp block, before
the translation along `forward`; at the end of the call the position can
exceed that bound only by the displacement of the call, at most
`maxSpeed * dt` per axis (for forward vectors of at most unit components,
which real normalization guarantees). -/
theorem c2_position_amended :
    (∀ (g : Glider) (i : FrameInput),
        |(clampPhase (speedPhase i (inputPhase i g))).pos.x| ≤ extendsX * (1 + bounds / 100) ∧
        |(clampPhase (speedPhase i (inputPhase i g))).pos.z| ≤ extendsZ * (1 + bounds / 100)) ∧
    ∀ (done : List FrameInput) (i : FrameInput) (rest : List FrameInput),
      (∀ j ∈ done ++ i :: rest, 0 ≤ j.dt ∧ |j.forward.x| ≤ 1 ∧ |j.forward.z| ≤ 1) →
      |(runGlider initGlider (done ++ [i])).pos.x|
          ≤ extendsX * (1 + bounds / 100) + maxSpeed * i.dt ∧
      |(runGlider initGlider (done ++ [i])).pos.z|
          ≤ extendsZ * (1 + bounds / 100) + maxSpeed * i.dt := by
  constructor
  · exact fun g i => ⟨clampPhase_x_bound _, clampPhase_z_bound _⟩
  · intro done i rest hin
    have hdt_done : ∀ j ∈ done, 0 ≤ j.dt :=
      fun j hj => (hin j (List.mem_append_left _ hj)).1
    have hi : 0 ≤ i.dt ∧ |i.forward.x| ≤ 1 ∧ |i.forward.z| ≤ 1 :=
      hin i (List.mem_append_right _ (List.mem_cons_self i rest))
    have hgb := runGlider_speed_bounds done initGlider (le_refl 0)
      (by norm_num [initGlider, maxSpeed]) hdt_done
    have hrun : runGlider initGlider (done ++ [i]) =
        updateGlider (runGlider initGlider done) i := by
      simp [runGlider, List.foldl_append]
    rw [hrun]
    exact updateGlider_pos_overshoot _ i hgb.1 hgb.2 hi.1 hi.2.1 hi.2.2

/-- Witness for C2 amended at the concrete trace `[idleInput]`. -/
theorem c2_position_amended_witness :
    |(runGlider initGlider ([] ++ [idleInput])).pos.x|
        ≤ extendsX * (1 + bounds / 100) + maxSpeed * idleInput.dt ∧
      |(runGlider initGlider ([] ++ [idleInput])).pos.z|
        ≤ extendsZ * (1 + bounds / 100) + maxSpeed * idleInput.dt :=
  c2_position_amended.2 [] idleInput []
    (by intro j hj; simp at hj; subst hj; norm_num [idleInput])

/-- C4: in every `updateGlider` call entered with `x` or `z` beyond the
`±(extent * 1.05)` boundary, the breached component is clamped to the
boundary value with the sign of the entry position, the speed is zeroed and
the thrusters are switched off, all within that call. -/
theorem c4_bounce (g : Glider) (i : FrameInput)
    (h : extendsX * (1 + bounds / 100) < |g.pos.x| ∨
         extendsZ * (1 + bounds / 100) < |g.pos.z|) :
    (updateGlider g i).speed = 0 ∧ (updateGlider g i).thrusters = false ∧
    (extendsX * (1 + bounds / 100) < |g.pos.x| →
      (updateGlider g i).pos.x = extendsX * (1 + bounds / 100) * signJS g.pos.x) ∧
    (extendsZ * (1 + bounds / 100) < |g.pos.z| →
      (updateGlider g i).pos.z = extendsZ * (1 + bounds / 100) * signJS g.pos.z) := by
  have hx1 : (speedPhase i (inputPhase i g)).pos.x = g.pos.x := by
    rw [speedPhase_pos, inputPhase_pos_x]
  have hz1 : (speedPhase i (inputPhase i g)).pos.z = g.pos.z := by
    rw [speedPhase_pos, inputPhase_pos_z]
  have hb := clampPhase_bounce (speedPhase i (inputPhase i g)) (by rw [hx1, hz1]; exact h)
  rw [hx1] at hb
  rw [hz1] at hb
  have hT : thrustersPhase i (clampPhase (speedPhase i (inputPhase i g))) =
      clampPhase (speedPhase i (inputPhase i g)) :=
    thrustersPhase_zero i _ hb.1 hb.2.1
  have hmv := movePhase_zero_pos i (clampPhase (speedPhase i (inputPhase i g))) hb.1
  refine ⟨?_, ?_, ?_, ?_⟩
  · show (movePhase i (thrustersPhase i _)).speed = 0
    rw [movePhase_speed, hT, hb.1]
  · show (movePhase i (thrustersPhase i _)).thrusters = false
    rw [movePhase_thrusters, hT, hb.2.1]
  · intro hx
    show (movePhase i (thrustersPhase i _)).pos.x = _
    rw [hT, hmv.1, hb.2.2.1 hx]
  · intro hz
    show (movePhase i (thrustersPhase i _)).pos.z = _
    rw [hT, hmv.2, hb.2.2.2 hz]

/-- Witness for C4 at the concrete breached state `breachState`
(`x = 60 > 52.5`). -/
theorem c4_bounce_witness :
    (updateGlider breachState cexInput).speed = 0 ∧
      (updateGlider breachState cexInput).thrusters = false ∧
      (updateGlider breachState cexInput).pos.x =
        extendsX * (1 + bounds / 100) * signJS breachState.pos.x := by
  have hx : extendsX * (1 + bounds / 100) < |breachState.pos.x| := by
    norm_num [breachState, extendsX, bounds, abs_of_nonneg]
  exact ⟨(c4_bounce breachState cexInput (Or.inl hx)).1,
    (c4_bounce breachState cexInput (Or.inl hx)).2.1,
    (c4_bounce breachState cexInput (Or.inl hx)).2.2.1 hx⟩

/-! # Selection-handler lemmas -/

lemma extractIdx_ne_zero (name : String) (n : Int) (h : extractIdx name = some n) : n ≠ 0 := by
  intro hn
  subst hn
  unfold extractIdx at h
  cases hp : parseIntJS (name.drop 3) with
  | none => rw [hp] at h; simp at h
  | some m =>
    rw [hp] at h
    by_cases hm : m = 0 <;> simp [hm] at h

lemma extractIdxP3_ne_zero (name : String) (n : Int) (h : extractIdxP3 name = some n) :
    n ≠ 0 := by
  intro hn
  subst hn
  unfold extractIdxP3 at h
  cases hp : parseIntJS (name.drop 3) with
  | none => rw [hp] at h; simp at h
  | some m =>
    rw [hp] at h
    by_cases hm : m - 1 = 0 <;> simp [hm] at h

lemma runSelection_cons (sys : List String) (sel : Option Int) (c : Option String)
    (cs : List (Option String)) :
    runSelection sys sel (c :: cs) =
      ((runSelection sys (selectionStep sys sel c).1 cs).1,
       (selectionStep sys sel c).2 ++ (runSelection sys (selectionStep sys sel c).1 cs).2) :=
  rfl

lemma selectionStep_cases (sys : List String) (sel : Option Int) (c : Option String) :
    selectionStep sys sel c = (sel, []) ∨
    (∃ j, j ≠ 0 ∧ (jsTruthy sel = false ∨ sel ≠ some j) ∧
        selectionStep sys sel c = (some j, [("on", j)])) ∨
    (∃ i, sel = some i ∧ i ≠ 0 ∧ selectionStep sys sel c = (none, [("off", i)])) ∨
    (jsTruthy sel = false ∧ selectionStep sys sel c = (none, [])) := by
  cases c with
  | none =>
    cases sel with
    | none => exact Or.inr (Or.inr (Or.inr ⟨rfl, rfl⟩))
    | some i =>
      by_cases hi : i = 0
      · refine Or.inr (Or.inr (Or.inr ⟨by simp [jsTruthy, hi], ?_⟩))
        simp [selectionStep, hi]
      · refine Or.inr (Or.inr (Or.inl ⟨i, rfl, hi, ?_⟩))
        simp [selectionStep, hi]
  | some name =>
    cases hp : extractIdx name with
    | none =>
      left
      simp [selectionStep, hp]
    | some j =>
      by_cases hc : sys.contains name = true
      · by_cases hcond : (!jsTruthy sel || decide (sel ≠ some j)) = true
        · refine Or.inr (Or.inl ⟨j, extractIdx_ne_zero name j hp, ?_, ?_⟩)
          · rcases Bool.or_eq_true _ _ |>.mp hcond with h | h
            · exact Or.inl (Bool.not_eq_true' _ |>.mp h)
            · exact Or.inr (of_decide_eq_true h)
          · simp only [selectionStep, hp]
            rw [if_pos hc, if_pos hcond]
        · left
          simp only [selectionStep, hp]
          rw [if_pos hc, if_neg hcond]
      · left
        simp only [selectionStep, hp]
        rw [if_neg hc]

lemma run_first_not_on (sys : List String) (cs : List (Option String)) :
    ∀ j : Int, j ≠ 0 → (runSelection sys (some j) cs).2.head? ≠ some ("on", j) := by
  induction cs with
  | nil => intro j hj; simp [runSelection]
  | cons c cs ih =>
    intro j hj
    rcases selectionStep_cases sys (some j) c with h | ⟨k, hk0, hcond, h⟩ |
      ⟨i, hsel, hi0, h⟩ | ⟨hf, h⟩
    · rw [runSelection_cons, h]
      simpa using ih j hj
    · have hkj : k ≠ j := by
        rcases hcond with hF | hne
        · exact absurd hF (by simp [jsTruthy, hj])
        · intro hkj; exact hne (by rw [hkj])
      rw [runSelection_cons, h]
      simp [hkj]
    · rw [runSelection_cons, h]
      simp
    · exact absurd hf (by simp [jsTruthy, hj])

lemma adjOk_cons_of (e : String × Int) (l : List (String × Int)) (hl : adjOk l = true)
    (hhd : ∀ b, l.head? = some b → ¬(e.1 = "on" ∧ e = b)) : adjOk (e :: l) = true := by
  cases l with
  | nil => rfl
  | cons b r =>
    show ((!(e.1 == "on" && e == b)) && adjOk (b :: r)) = true
    rw [hl, Bool.and_true]
    have hb := hhd b rfl
    by_cases h1 : e.1 = "on"
    · by_cases h2 : e = b
      · exact absurd ⟨h1, h2⟩ hb
      · simp [h2]
    · simp [h1]

lemma runSelection_adjOk (sys : List String) (cs : List (Option String)) :
    ∀ sel, adjOk (runSelection sys sel cs).2 = true := by
  induction cs with
  | nil => intro sel; rfl
  | cons c cs ih =>
    intro sel
    rcases selectionStep_cases sys sel c with h | ⟨j, hj0, hcond, h⟩ |
      ⟨i, hsel, hi0, h⟩ | ⟨hf, h⟩
    · rw [runSelection_cons, h]
      simpa using ih sel
    · rw [runSelection_cons, h]
      simp only [List.cons_append, List.nil_append]
      refine adjOk_cons_of _ _ (ih (some j)) ?_
      rintro b hb ⟨hb1, hb2⟩
      subst hb2
      exact run_first_not_on sys cs j hj0 hb
    · rw [runSelection_cons, h]
      simp only [List.cons_append, List.nil_append]
      refine adjOk_cons_of _ _ (ih none) ?_
      rintro b hb ⟨hb1, hb2⟩
      simp at hb1
    · rw [runSelection_cons, h]
      simpa using ih none

/-! # Claim theorems: selection protocol -/

/-- C1 counterexample: with registry names `obj4`, `obj5` and the candidate
trace `obj4, obj5, obj4`, the handler of `scene1/main.ts` fires
`on 4, on 5, on 4` — when the candidate changes directly from one object to
another it fires "on" for the new object with no "off" for the previous one
(no `("off", 4)` anywhere), and object 4 receives two "on" events with no
intervening "off" for it, refuting the claim as stated. -/
theorem c1_selection_counterexample :
    runSelection ["obj4", "obj5"] none [some "obj4", some "obj5", some "obj4"] =
      (some 4, [("on", 4), ("on", 5), ("on", 4)]) ∧
    ("off", (4 : Int)) ∉
      (runSelection ["obj4", "obj5"] none [some "obj4", some "obj5", some "obj4"]).2 ∧
    doubleOnNoOff 4
      (runSelection ["obj4", "obj5"] none [some "obj4", some "obj5", some "obj4"]).2
      false = true :=
  ⟨by decide, by decide, by decide⟩

/-- C1 amended: the handler is a no-op on an unchanged candidate; it fires
exactly `("off", i)` when the candidate disappears; when the candidate
changes directly to a different object it fires exactly `("on", j)` for the
new object, with no "off" for the previous one; and in the event stream of
any trace an "on" event for an object is never immediately followed by
another "on" for the same object (some other event always intervenes —
though not necessarily an "off" for that object). -/
theorem c1_selection_amended :
    (∀ (sys : List String) (i : Int) (name : String), i ≠ 0 → name ∈ sys →
        extractIdx name = some i →
        selectionStep sys (some i) (some name) = (some i, [])) ∧
    (∀ (sys : List String) (i : Int), i ≠ 0 →
        selectionStep sys (some i) none = (none, [("off", i)])) ∧
    (∀ (sys : List String) (i j : Int) (name : String), i ≠ j → name ∈ sys →
        extractIdx name = some j →
        selectionStep sys (some i) (some name) = (some j, [("on", j)])) ∧
    ∀ (sys : List String) (sel : Option Int) (trace : List (Option String)),
      adjOk (runSelection sys sel trace).2 = true := by
  refine ⟨?_, ?_, ?_, fun sys sel trace => runSelection_adjOk sys trace sel⟩
  · intro sys i name hi hmem hext
    have hc : sys.contains name = true := by simpa using hmem
    have hcf : (!jsTruthy (some i) || decide ((some i : Option Int) ≠ some i)) = false := by
      simp [jsTruthy, hi]
    simp only [selectionStep, hext]
    rw [if_pos hc, if_neg (by rw [hcf]; simp)]
  · intro sys i hi
    simp only [selectionStep]
    rw [if_pos (show decide (i ≠ 0) = true by simp [hi])]
  · intro sys i j name hij hmem hext
    have hc : sys.contains name = true := by simpa using hmem
    have hcond : (!jsTruthy (some i) || decide ((some i : Option Int) ≠ some j)) = true := by
      simp [hij]
    simp only [selectionStep, hext]
    rw [if_pos hc, if_pos hcond]

/-- Witness for C1 amended at concrete registries, states and traces. -/
theorem c1_selection_amended_witness :
    selectionStep ["obj4"] (some 4) (some "obj4") = (some 4, []) ∧
    selectionStep ["obj4"] (some 4) none = (none, [("off", 4)]) ∧
    selectionStep ["obj4", "obj5"] (some 4) (some "obj5") = (some 5, [("on", 5)]) ∧
    adjOk (runSelection ["obj4"] none [some "obj4"]).2 = true :=
  ⟨c1_selection_amended.1 ["obj4"] 4 "obj4" (by decide) (by decide) (by decide),
   c1_selection_amended.2.1 ["obj4"] 4 (by decide),
   c1_selection_amended.2.2.1 ["obj4", "obj5"] 4 5 "obj5" (by decide) (by decide) (by decide),
   c1_selection_amended.2.2.2 ["obj4"] none [some "obj4"]⟩

/-- C9: in the `part_003` handler an extracted index of 0 is coerced to
`undefined` by `(parseInt(name.substring(3)) - 1) || undefined`, so the
candidate `obj1` is always discarded — the step never changes state and
never fires any event for it — and no `("on", 0)` callback is ever fired
for any candidate, state or registry. -/
theorem c9_obj1_never_on :
    extractIdxP3 "obj1" = none ∧
    (∀ (sys : List String) (sel : Option Int),
        selectionStepP3 sys sel (some "obj1") = (sel, [])) ∧
    ∀ (sys : List String) (sel : Option Int) (cand : Option String),
      ((selectionStepP3 sys sel cand).2.contains ("on", 0)) = false := by
  refine ⟨by decide, fun sys sel => rfl, ?_⟩
  intro sys sel cand
  cases cand with
  | none =>
    cases sel with
    | none => rfl
    | some i =>
      by_cases hi : i = 0
      · simp [selectionStepP3, hi]
      · simp [selectionStepP3, hi]
  | some name =>
    cases hp : extractIdxP3 name with
    | none => simp [selectionStepP3, hp]
    | some j =>
      have hj := extractIdxP3_ne_zero name j hp
      by_cases hc : sys.contains name = true
      · by_cases hcond : (!jsTruthy sel || decide (sel ≠ some j)) = true
        · simp only [selectionStepP3, hp]
          rw [if_pos hc, if_pos hcond]
          simp
          omega
        · simp only [selectionStepP3, hp]
          rw [if_pos hc, if_neg hcond]
          rfl
      · simp only [selectionStepP3, hp]
        rw [if_neg hc]
        rfl

/-! # Parameter-store lemmas -/

lemma setParams_find_same (ps : ParamStore) (k : String) (v : PVal)
    (h : hasOwnProp ps k = true) :
    (ps.map (fun kv => if kv.1 = k then (k, v) else kv)).find? (fun kv => kv.1 == k) =
      some (k, v) := by
  induction ps with
  | nil => simp [hasOwnProp] at h
  | cons kv ps ih =>
    simp only [hasOwnProp, List.any_cons, Bool.or_eq_true] at h
    by_cases hk : kv.1 = k
    · simp only [List.map_cons, if_pos hk]
      rw [List.find?_cons_of_pos _ (by simp)]
    · rcases h with h | h
      · exact absurd (by simpa using h) hk
      · simp only [List.map_cons, if_neg hk]
        rw [List.find?_cons_of_neg _ (by simp [hk])]
        exact ih h

lemma setParams_find_other (ps : ParamStore) (k : String) (v : PVal) (k2 : String)
    (hne : k2 ≠ k) :
    (ps.map (fun kv => if kv.1 = k then (k, v) else kv)).find? (fun kv => kv.1 == k2) =
      ps.find? (fun kv => kv.1 == k2) := by
  induction ps with
  | nil => rfl
  | cons kv ps ih =>
    simp only [List.map_cons]
    by_cases hk : kv.1 = k
    · rw [if_pos hk]
      rw [List.find?_cons_of_neg _ (by simp [Ne.symm hne]),
        List.find?_cons_of_neg _ (by simp [hk, Ne.symm hne])]
      exact ih
    · rw [if_neg hk]
      by_cases h2 : kv.1 = k2
      · rw [List.find?_cons_of_pos _ (by simp [h2]), List.find?_cons_of_pos _ (by simp [h2])]
      · rw [List.find?_cons_of_neg _ (by simp [h2]), List.find?_cons_of_neg _ (by simp [h2])]
        exact ih

/-! # Claim theorems: parameter store -/

/-- C8: `setParams(key, value)` throws `Invalid parameter key` and leaves
the whole store untouched when `key` is not an own property of `sysParms`;
when `key` exists it assigns `value` to exactly that parameter, raising no
error and leaving every other parameter unchanged. -/
theorem c8_setparams :
    (∀ (ps : ParamStore) (k : String) (v : PVal), hasOwnProp ps k = false →
        setParams ps k v = (some ("Invalid parameter key: " ++ k), ps)) ∧
    ∀ (ps : ParamStore) (k : String) (v : PVal), hasOwnProp ps k = true →
      (setParams ps k v).1 = none ∧ getParam (setParams ps k v).2 k = some v ∧
      ∀ k2, k2 ≠ k → getParam (setParams ps k v).2 k2 = getParam ps k2 := by
  constructor
  · intro ps k v h
    simp [setParams, h]
  · intro ps k v h
    have hsnd : (setParams ps k v).2 =
        ps.map (fun kv => if kv.1 = k then (k, v) else kv) := by
      simp [setParams, h]
    refine ⟨by simp [setParams, h], ?_, ?_⟩
    · rw [hsnd]
      simp only [getParam]
      rw [setParams_find_same ps k v h]
      rfl
    · intro k2 hk2
      rw [hsnd]
      simp only [getParam]
      rw [setParams_find_other ps k v k2 hk2]

/-- Witness for C8 at the concrete store `sysParmsInit`, the invalid key
`foo` and the valid key `gravity`. -/
theorem c8_setparams_witness :
    setParams sysParmsInit "foo" (PVal.pnum 0) =
      (some ("Invalid parameter key: " ++ "foo"), sysParmsInit) ∧
    (setParams sysParmsInit "gravity" (PVal.pnum 2)).1 = none ∧
    getParam (setParams sysParmsInit "gravity" (PVal.pnum 2)).2 "gravity" =
      some (PVal.pnum 2) ∧
    getParam (setParams sysParmsInit "gravity" (PVal.pnum 2)).2 "camMode" =
      getParam sysParmsInit "camMode" :=
  ⟨c8_setparams.1 sysParmsInit "foo" (PVal.pnum 0) (by decide),
   (c8_setparams.2 sysParmsInit "gravity" (PVal.pnum 2) (by decide)).1,
   (c8_setparams.2 sysParmsInit "gravity" (PVal.pnum 2) (by decide)).2.1,
   (c8_setparams.2 sysParmsInit "gravity" (PVal.pnum 2) (by decide)).2.2 "camMode" (by decide)⟩

/-! # Claim theorems: object registry frame updates -/

/-- C6: for every object with a mesh, an active orbit and
`orbit.angle ≠ 0`, the frame update sets `position.x = radius·sin(angle)`
and `position.z = radius·cos(angle)` and then advances the angle by
`orbit.speed`; consequently the updated position satisfies
`x² + z² = radius²` whenever sin/cos satisfy the Pythagorean identity
(exactly what real sine and cosine guarantee; floats satisfy it up to
tolerance). -/
theorem c6_orbit_update (sinQ cosQ : ℚ → ℚ) (p : Planet)
    (hsc : ∀ a, sinQ a ^ 2 + cosQ a ^ 2 = 1)
    (hmesh : p.mesh = true) (hact : p.orbit.active = true) (hang : p.orbit.angle ≠ 0) :
    (planetFrameBab3 sinQ cosQ p).pos.x = p.orbit.radius * sinQ p.orbit.angle ∧
    (planetFrameBab3 sinQ cosQ p).pos.z = p.orbit.radius * cosQ p.orbit.angle ∧
    (planetFrameBab3 sinQ cosQ p).orbit.angle = p.orbit.angle + p.orbit.speed ∧
    (planetFrameBab3 sinQ cosQ p).pos.x ^ 2 + (planetFrameBab3 sinQ cosQ p).pos.z ^ 2 =
      p.orbit.radius ^ 2 := by
  have hfx : (planetFrameBab3 sinQ cosQ p).pos.x = p.orbit.radius * sinQ p.orbit.angle := by
    simp [planetFrameBab3, hmesh, hang]
  have hfz : (planetFrameBab3 sinQ cosQ p).pos.z = p.orbit.radius * cosQ p.orbit.angle := by
    simp [planetFrameBab3, hmesh, hang]
  have hfa : (planetFrameBab3 sinQ cosQ p).orbit.angle = p.orbit.angle + p.orbit.speed := by
    simp [planetFrameBab3, hmesh, hang]
  refine ⟨hfx, hfz, hfa, ?_⟩
  rw [hfx, hfz]
  linear_combination (p.orbit.radius ^ 2) * hsc p.orbit.angle

/-- Witness for C6 at the orbiting object `orbitPlanet` and the exact
Pythagorean pair `sin = 3/5`, `cos = 4/5`. -/
theorem c6_orbit_update_witness :
    (planetFrameBab3 (fun _ => 3 / 5) (fun _ => 4 / 5) orbitPlanet).pos.x =
      orbitPlanet.orbit.radius * (3 / 5) ∧
    (planetFrameBab3 (fun _ => 3 / 5) (fun _ => 4 / 5) orbitPlanet).pos.z =
      orbitPlanet.orbit.radius * (4 / 5) ∧
    (planetFrameBab3 (fun _ => 3 / 5) (fun _ => 4 / 5) orbitPlanet).orbit.angle =
      orbitPlanet.orbit.angle + orbitPlanet.orbit.speed ∧
    (planetFrameBab3 (fun _ => 3 / 5) (fun _ => 4 / 5) orbitPlanet).pos.x ^ 2 +
        (planetFrameBab3 (fun _ => 3 / 5) (fun _ => 4 / 5) orbitPlanet).pos.z ^ 2 =
      orbitPlanet.orbit.radius ^ 2 :=
  c6_orbit_update (fun _ => 3 / 5) (fun _ => 4 / 5) orbitPlanet
    (fun _ => by norm_num) rfl rfl (by norm_num [orbitPlanet])

/-- C7: for every object with a mesh and `rotation.active = true`, after `N`
frame updates the accumulated Y-axis rotation grows by exactly
`N × rotation.speed` (hence equals it modulo `2π` as well); an object with
`rotation.active = false` is left entirely unchanged by the frame update. -/
theorem c7_rotation_accumulation :
    (∀ (p : Planet) (N : ℕ), p.mesh = true → p.rotation.active = true →
        (planetFrameScene1^[N] p).rotY = p.rotY + N * p.rotation.speed) ∧
    ∀ p : Planet, p.rotation.active = false → planetFrameScene1 p = p := by
  constructor
  · intro p N hmesh hact
    induction N generalizing p with
    | zero => simp
    | succ n ih =>
      rw [Function.iterate_succ_apply]
      have hstep : planetFrameScene1 p = { p with rotY := p.rotY + p.rotation.speed } := by
        simp [planetFrameScene1, hmesh, hact]
      rw [hstep, ih { p with rotY := p.rotY + p.rotation.speed } hmesh hact]
      push_cast
      ring
  · intro p hact
    by_cases hm : p.mesh = false
    · simp [planetFrameScene1, hm]
    · simp [planetFrameScene1, hm, hact]

/-- Witness for C7 at `orbitPlanet` over three frames and at the inactive
object `inertPlanet`. -/
theorem c7_rotation_accumulation_witness :
    (planetFrameScene1^[3] orbitPlanet).rotY =
      orbitPlanet.rotY + ((3 : ℕ) : ℚ) * orbitPlanet.rotation.speed ∧
    planetFrameScene1 inertPlanet = inertPlanet :=
  ⟨c7_rotation_accumulation.1 orbitPlanet 3 rfl rfl,
   c7_rotation_accumulation.2 inertPlanet rfl⟩

/-! # Ray-pick lemmas -/

lemma sqrtLeQ_correct (s c : ℚ) : sqrtLeQ s c = true ↔ Real.sqrt (s : ℝ) ≤ (c : ℝ) := by
  rw [Real.sqrt_le_iff]
  simp only [sqrtLeQ, Bool.and_eq_true, decide_eq_true_eq]
  constructor
  · rintro ⟨h1, h2⟩
    exact ⟨by exact_mod_cast h1, by exact_mod_cast h2⟩
  · rintro ⟨h1, h2⟩
    exact ⟨by exact_mod_cast h1, by exact_mod_cast h2⟩

lemma sqrtGtQ_correct (s c : ℚ) :
    sqrtGtQ s c = true ↔ (c : ℝ) < Real.sqrt (s : ℝ) := by
  by_cases hc : c < 0
  · simp only [sqrtGtQ, Bool.or_eq_true, decide_eq_true_eq]
    constructor
    · intro _
      calc (c : ℝ) < 0 := by exact_mod_cast hc
        _ ≤ Real.sqrt (s : ℝ) := Real.sqrt_nonneg _
    · intro _
      exact Or.inl hc
  · rw [Real.lt_sqrt (by exact_mod_cast not_lt.mp hc)]
    simp only [sqrtGtQ, Bool.or_eq_true, decide_eq_true_eq]
    constructor
    · rintro (h | h)
      · exact absurd h hc
      · exact_mod_cast h
    · intro h
      exact Or.inr (by exact_mod_cast h)

lemma sqrt_conds_iff (dq c : ℚ) :
    (sqrtLeQ dq c && sqrtGtQ dq (1 / 2)) = true ↔
      1 / 4 < dq ∧ (dq ≤ c ^ 2 ∧ 0 ≤ c) := by
  simp only [sqrtLeQ, sqrtGtQ, Bool.and_eq_true, Bool.or_eq_true, decide_eq_true_eq]
  constructor
  · rintro ⟨⟨h1, h2⟩, h3 | h3⟩
    · norm_num at h3
    · refine ⟨by norm_num at h3 ⊢; linarith, h2, h1⟩
  · rintro ⟨h1, h2, h3⟩
    exact ⟨⟨h3, h2⟩, Or.inr (by norm_num; linarith)⟩

/-! # Claim theorems: ray-pick candidate rule -/

/-- C5: `raySelect` (the default export `pickBetweenCameraAndLookAt` of
`part_002`) returns a name exactly as the spec's candidate rule says: the
name of the closest hit along the camera-to-look-at ray over the pickable,
enabled, visible meshes, provided the name is nonempty and the mesh's
distance from the camera lies in `(0.5, cutOff]`; in every other case it
returns no name. -/
theorem c5_ray_pick_rule (meshes : List SceneMesh) (origin lookAt : V3) (cutOff : ℚ) :
    raySelect meshes origin lookAt cutOff = specSelect meshes origin lookAt cutOff := by
  simp only [raySelect, specSelect, closestHit]
  by_cases hq : (lookAt.sub origin).quad = 0
  · simp [hq]
  · simp only [hq, if_false, ite_false]
    cases hh : (multiPickWithRay (V3.quad (lookAt.sub origin)) defaultPred meshes).head? with
    | none => simp [hh]
    | some dm =>
      obtain ⟨d, m⟩ := dm
      simp only [hh, Option.map_some']
      by_cases hname : m.name = ""
      · rw [if_pos hname, if_neg (fun hcc => hcc.1 hname)]
      · rw [if_neg hname]
        by_cases hcond : (sqrtLeQ ((origin.sub m.absPos).quad) cutOff &&
            sqrtGtQ ((origin.sub m.absPos).quad) (1 / 2)) = true
        · rw [if_pos hcond]
          have hc := (sqrt_conds_iff _ _).mp hcond
          rw [if_pos ⟨hname, hc.1, hc.2⟩]
        · rw [if_neg hcond]
          rw [if_neg (fun hcc => hcond ((sqrt_conds_iff _ _).mpr ⟨hcc.2.1, hcc.2.2⟩))]

end SpaceExploration
